import Mathlib

/-!
Shallow embedding of the payment lifecycle, transactional outbox and event
publication pipeline of the tutoring-marketplace backend.

The relational store is modelled as lists of rows; each HTTP view or Celery
task becomes a pure function from the database state (plus the request or job
arguments, with nondeterministic inputs such as freshly generated UUID hex
strings and the random coin of the provider simulator passed explicitly) to
the new database state, the response value, and the list of asynchronous jobs
it enqueued.

Sources embedded:
  backend/apps/payments/models.py   (Payment, status enum, id generators)
  backend/apps/payments/views.py    (CreatePaymentIntentView, ConfirmPaymentView,
                                     WebhookSimulatorView, PaymentStatusView)
  backend/apps/payments/tasks.py    (simulate_payment_provider,
                                     process_webhook_event, process_successful_payment)
  backend/apps/events/models.py     (OutboxEvent)
  backend/apps/events/tasks.py      (publish_outbox_events)
  backend/apps/tutors/signals.py    (on_tutor_save / on_tutor_delete)
  backend/apps/bookings/models.py   (Booking status enum)
-/

/-- Payment.Status choices from payments/models.py. -/
inductive PaymentStatus where
  | pending
  | processing
  | succeeded
  | failed
  | refunded
deriving DecidableEq, Repr

/-- Booking.Status choices from bookings/models.py. -/
inductive BookingStatus where
  | pending
  | confirmed
  | cancelled
  | completed
deriving DecidableEq, Repr

/-- The slice of the Booking row the payment flow reads and writes. -/
structure Booking where
  id : Nat
  student : Nat
  status : BookingStatus
deriving DecidableEq, Repr

/-- Payment row from payments/models.py (pk, unique payment_intent_id and
idempotency_key, amount as a fixed-point value in minor units, currency,
status, booking and user foreign keys; the model has no client_secret
column — secrets are generated per response and never persisted). -/
structure Payment where
  id : Nat
  payment_intent_id : String
  idempotency_key : String
  amount : Int
  currency : String
  status : PaymentStatus
  booking_id : Nat
  user_id : Nat
deriving DecidableEq, Repr

/-- OutboxEvent row from events/models.py. Payload is kept opaque. -/
structure OutboxEvent where
  id : Nat
  aggregate_type : String
  aggregate_id : String
  event_type : String
  payload : String
  created_at : Nat
  published_at : Option Nat
deriving DecidableEq, Repr

/-- The relational database state visible to the payment pipeline. -/
structure Db where
  bookings : List Booking
  payments : List Payment
deriving DecidableEq, Repr

/-- A unit of work placed on the async job queue (`.delay` calls). -/
inductive Job where
  | simulate (payment_id : Nat) (card_number : Option String)
  | webhook (event_type : String) (payment_intent_id : String)
  | confirmBooking (payment_id : Nat)
deriving DecidableEq, Repr

/-- `Payment.objects.get(payment_intent_id=...)`: first row matching the
intent id (the column carries a unique constraint in the schema). -/
def Db.getPaymentByIntent (db : Db) (pid : String) : Option Payment :=
  db.payments.find? (fun p => p.payment_intent_id == pid)

/-- `Payment.objects.get(payment_intent_id=..., user=...)`: lookup scoped to
the requesting user. -/
def Db.getPaymentByIntentAndUser (db : Db) (pid : String) (user : Nat) :
    Option Payment :=
  db.payments.find? (fun p => p.payment_intent_id == pid && p.user_id == user)

/-- `Payment.objects.get(id=...)`: lookup by primary key. -/
def Db.getPaymentById (db : Db) (payment_id : Nat) : Option Payment :=
  db.payments.find? (fun p => p.id == payment_id)

/-- `Booking.objects.get(id=..., student=...)`: booking lookup scoped to the
requesting user. -/
def Db.getBookingForUser (db : Db) (booking_id user : Nat) : Option Booking :=
  db.bookings.find? (fun b => b.id == booking_id && b.student == user)

/-- `Booking` reached through `payment.booking` (foreign-key dereference). -/
def Db.getBookingById (db : Db) (booking_id : Nat) : Option Booking :=
  db.bookings.find? (fun b => b.id == booking_id)

/-- `payment.save()` after assigning `payment.status`: rewrite the row with
the payment's primary key. -/
def Db.updatePaymentStatus (db : Db) (payment_id : Nat) (st : PaymentStatus) :
    Db :=
  { db with
    payments := db.payments.map (fun p =>
      if p.id == payment_id then { p with status := st } else p) }

/-- `booking.save()` after assigning `booking.status`. -/
def Db.updateBookingStatus (db : Db) (booking_id : Nat) (st : BookingStatus) :
    Db :=
  { db with
    bookings := db.bookings.map (fun b =>
      if b.id == booking_id then { b with status := st } else b) }

/-- Status of the payment a `payment_intent_id` lookup would return. -/
def Db.statusOfIntent (db : Db) (pid : String) : Option PaymentStatus :=
  (db.getPaymentByIntent pid).map (·.status)

/-- Status of the booking a primary-key lookup would return. -/
def Db.statusOfBooking (db : Db) (booking_id : Nat) : Option BookingStatus :=
  (db.getBookingById booking_id).map (·.status)

/-- `Payment.generate_payment_intent_id`: "pi_" followed by fresh uuid hex
(the fresh hex is passed in explicitly). -/
def generate_payment_intent_id (fresh : String) : String :=
  "pi_" ++ fresh

/-- `Payment.generate_client_secret`: intent id, "_secret_", fresh uuid hex. -/
def generate_client_secret (payment_intent_id fresh : String) : String :=
  payment_intent_id ++ "_secret_" ++ fresh

/-- Test card constants from payments/tasks.py. -/
def TEST_CARD_SUCCESS : String := "4242424242424242"

/-- Generic-decline test card from payments/tasks.py. -/
def TEST_CARD_DECLINED : String := "4000000000000002"

/-- Insufficient-funds test card from payments/tasks.py. -/
def TEST_CARD_INSUFFICIENT : String := "4000000000009995"

/-- Response of CreatePaymentIntentView.post: either the 404 branch or the
response body fields (`created` drives the 201/200 split). -/
inductive IntentResp where
  | bookingNotFound
  | ok (payment_intent_id client_secret : String) (amount : Int)
      (currency : String) (st : PaymentStatus) (created : Bool)
deriving DecidableEq, Repr

/-- HTTP status code the view attaches to an IntentResp
(`HTTP_201_CREATED if created else HTTP_200_OK`, 404 on missing booking). -/
def intentHttpCode : IntentResp → Nat
  | .bookingNotFound => 404
  | .ok _ _ _ _ _ created => if created then 201 else 200

/-- Validated request body of CreatePaymentIntentView (metadata is opaque). -/
structure IntentRequest where
  booking_id : Nat
  amount : Int
  currency : String
  idempotency_key : String
deriving DecidableEq, Repr

/-- CreatePaymentIntentView.post (payments/views.py): booking lookup scoped
to the requester, then `get_or_create` keyed on idempotency_key.  The freshly
generated uuid hex for the intent id and for the client secret, and the new
row's primary key, are explicit inputs. -/
def createPaymentIntentPost (db : Db) (user : Nat) (req : IntentRequest)
    (freshIntent freshSecret : String) (newPk : Nat) : Db × IntentResp :=
  match db.getBookingForUser req.booking_id user with
  | none => (db, .bookingNotFound)
  | some booking =>
    match db.payments.find? (fun p => p.idempotency_key == req.idempotency_key) with
    | some p =>
        (db, .ok p.payment_intent_id
          (generate_client_secret p.payment_intent_id freshSecret)
          p.amount p.currency p.status false)
    | none =>
        let p : Payment :=
          { id := newPk
            payment_intent_id := generate_payment_intent_id freshIntent
            idempotency_key := req.idempotency_key
            amount := req.amount
            currency := req.currency
            status := .pending
            booking_id := booking.id
            user_id := user }
        ({ db with payments := db.payments ++ [p] },
         .ok p.payment_intent_id
           (generate_client_secret p.payment_intent_id freshSecret)
           p.amount p.currency p.status true)

/-- Response of ConfirmPaymentView.post and PaymentStatusView.get. -/
inductive ConfirmResp where
  | notFound
  | ok (st : PaymentStatus) (payment_intent_id : String)
deriving DecidableEq, Repr

/-- ConfirmPaymentView.post (payments/views.py): user-scoped lookup; if the
status is not pending, return it unchanged with no side effects; otherwise
move to processing and enqueue `simulate_payment_provider.delay`. -/
def confirmPaymentPost (db : Db) (user : Nat) (pid : String)
    (card_number : Option String) : Db × ConfirmResp × List Job :=
  match db.getPaymentByIntentAndUser pid user with
  | none => (db, .notFound, [])
  | some p =>
    if p.status = .pending then
      (db.updatePaymentStatus p.id .processing,
       .ok .processing p.payment_intent_id,
       [Job.simulate p.id card_number])
    else
      (db, .ok p.status p.payment_intent_id, [])

/-- Response of WebhookSimulatorView.post. -/
inductive AdminWebhookResp where
  | notFound
  | ok (payment_status : PaymentStatus)
deriving DecidableEq, Repr

/-- WebhookSimulatorView.post (payments/views.py): unscoped intent lookup,
inline status assignment for the two event types, `payment.save()`, and a
`processed: true` response.  It enqueues no job. -/
def webhookSimulatorPost (db : Db) (event_type : String) (pid : String) :
    Db × AdminWebhookResp × List Job :=
  match db.getPaymentByIntent pid with
  | none => (db, .notFound, [])
  | some p =>
    let newStatus :=
      if event_type == "payment_intent.succeeded" then PaymentStatus.succeeded
      else if event_type == "payment_intent.failed" then PaymentStatus.failed
      else p.status
    (db.updatePaymentStatus p.id newStatus, .ok newStatus, [])

/-- Job-level result dict of process_webhook_event. -/
inductive WebhookResult where
  | notFound
  | ok (old new : PaymentStatus)
deriving DecidableEq, Repr

/-- process_webhook_event (payments/tasks.py): the single webhook handler.
Missing payment returns an error dict without raising; succeeded sets the
terminal status and enqueues `process_successful_payment.delay`; failed sets
failed with no side effect; `payment.save()` runs in every found branch. -/
def process_webhook_event (db : Db) (event_type : String) (pid : String) :
    Db × WebhookResult × List Job :=
  match db.getPaymentByIntent pid with
  | none => (db, .notFound, [])
  | some p =>
    let newStatus :=
      if event_type == "payment_intent.succeeded" then PaymentStatus.succeeded
      else if event_type == "payment_intent.failed" then PaymentStatus.failed
      else p.status
    let jobs :=
      if event_type == "payment_intent.succeeded" then [Job.confirmBooking p.id]
      else []
    (db.updatePaymentStatus p.id newStatus, .ok p.status newStatus, jobs)

/-- Python truthiness of the optional card_number string (`elif card_number:`
is false for both None and the empty string). -/
def cardTruthy : Option String → Bool
  | none => false
  | some c => !(c == "")

/-- Outcome determination of simulate_payment_provider as a function of the
card number and the random coin used for non-test cards (true picks
succeeded in `random.choice`). -/
def simulateEvent (card_number : Option String) (coin : Bool) : String :=
  if card_number == some TEST_CARD_SUCCESS then "payment_intent.succeeded"
  else if card_number == some TEST_CARD_DECLINED
      || card_number == some TEST_CARD_INSUFFICIENT then "payment_intent.failed"
  else if cardTruthy card_number then
    if coin then "payment_intent.succeeded" else "payment_intent.failed"
  else "payment_intent.succeeded"

/-- Job-level result dict of simulate_payment_provider. -/
inductive SimResult where
  | notFound
  | done (payment_id : Nat) (event : String)
deriving DecidableEq, Repr

/-- simulate_payment_provider (payments/tasks.py): after the simulated
latency, look the payment up by pk (missing → error dict, no raise), decide
the outcome from the card number, and enqueue `process_webhook_event.delay`
with the event and the payment's intent id.  It never writes the Db. -/
def simulate_payment_provider (db : Db) (payment_id : Nat)
    (card_number : Option String) (coin : Bool) : Db × SimResult × List Job :=
  match db.getPaymentById payment_id with
  | none => (db, .notFound, [])
  | some p =>
    (db, .done payment_id (simulateEvent card_number coin),
     [Job.webhook (simulateEvent card_number coin) p.payment_intent_id])

/-- Job-level result dict of process_successful_payment.  `.missingBooking`
models the foreign-key dereference `payment.booking` hitting a booking row
that is absent from the store — a state the relational schema's FK
constraint excludes. -/
inductive SideEffectResult where
  | notFound
  | missingBooking
  | done (payment_id booking_id : Nat) (booking_status : BookingStatus)
deriving DecidableEq, Repr

/-- process_successful_payment (payments/tasks.py): load the payment and its
booking; flip a pending booking to confirmed and save; any other booking
status is left untouched (no write). -/
def process_successful_payment (db : Db) (payment_id : Nat) :
    Db × SideEffectResult :=
  match db.getPaymentById payment_id with
  | none => (db, .notFound)
  | some p =>
    match db.getBookingById p.booking_id with
    | none => (db, .missingBooking)
    | some booking =>
      if booking.status = .pending then
        (db.updateBookingStatus booking.id .confirmed,
         .done payment_id booking.id .confirmed)
      else
        (db, .done payment_id booking.id booking.status)

/-- Unpublished filter used by the drain query
(`published_at__isnull=True`). -/
def unpublished (e : OutboxEvent) : Bool :=
  e.published_at == none

/-- The drain query of publish_outbox_events (events/tasks.py):
`OutboxEvent.objects.filter(published_at__isnull=True).order_by("created_at")[:100]`.
The outbox table is threaded in storage (creation) order; the `order_by`
coincides with that order under the table invariant that `created_at` is
non-decreasing along the list (`auto_now_add` timestamps on an append-only
table), which the order-related theorems take as a hypothesis. -/
def drainSelect (outbox : List OutboxEvent) : List OutboxEvent :=
  (outbox.filter unpublished).take 100

/-- `event.save(update_fields=["published_at"])` after assigning
`event.published_at = timezone.now()`. -/
def markPublished (outbox : List OutboxEvent) (eid : Nat) (now : Nat) :
    List OutboxEvent :=
  outbox.map (fun e => if e.id == eid then { e with published_at := some now } else e)

/-- The per-event loop of publish_outbox_events: attempt the broker send for
each selected event; on success mark that row published and count it, on an
exception log, count the failure and continue with the rest of the batch.
`send` models `producer.send` returning true on success and false when it
raises.  Returns the outbox table, published_count and failed_count. -/
def drainLoop (outbox : List OutboxEvent) (batch : List OutboxEvent)
    (send : OutboxEvent → Bool) (now : Nat) : List OutboxEvent × Nat × Nat :=
  match batch with
  | [] => (outbox, 0, 0)
  | e :: rest =>
    if send e then
      let r := drainLoop (markPublished outbox e.id now) rest send now
      (r.1, r.2.1 + 1, r.2.2)
    else
      let r := drainLoop outbox rest send now
      (r.1, r.2.1, r.2.2 + 1)

/-- publish_outbox_events (events/tasks.py): one drain cycle over the
selected batch. -/
def publish_outbox_events (outbox : List OutboxEvent)
    (send : OutboxEvent → Bool) (now : Nat) : List OutboxEvent × Nat × Nat :=
  drainLoop outbox (drainSelect outbox) send now

/-- Business state touched by a Tutor save: the tutor rows plus the outbox
table. -/
structure TutorDb where
  tutors : List Nat
  outbox : List OutboxEvent
deriving DecidableEq, Repr

/-- The OutboxEvent row the on_tutor_save hook creates
(`aggregate_type="Tutor"`, `aggregate_id=str(instance.id)`, serializer
payload opaque, `published_at` left at its null default). -/
def mkTutorEvent (eid tutorId : Nat) (event_type : String)
    (payload : String) (created_at : Nat) : OutboxEvent :=
  { id := eid
    aggregate_type := "Tutor"
    aggregate_id := toString tutorId
    event_type := event_type
    payload := payload
    created_at := created_at
    published_at := none }

/-- One Tutor-save request as executed by tutors/signals.py.  The post_save
receiver registers the OutboxEvent creation with `transaction.on_commit`, so
the event row is written by a hook that runs only after the business
transaction commits, in a separate later commit.  `commits` is whether the
business transaction commits (on rollback Django discards the registered
hooks); `hookRuns` is whether the process survives to run the hook —
`hookRuns = false` models a crash after the business commit and before the
hook's own commit. -/
def tutorSaveOnCommit (db : TutorDb) (tutorId : Nat) (commits hookRuns : Bool)
    (eid payloadHex created_at : Nat) : TutorDb :=
  if commits then
    let db1 : TutorDb := { db with tutors := db.tutors ++ [tutorId] }
    if hookRuns then
      { db1 with
        outbox := db1.outbox ++
          [mkTutorEvent eid tutorId
            (if db.tutors.contains tutorId then "TutorUpdated" else "TutorCreated")
            (toString payloadHex) created_at] }
    else db1
  else db

/-- Sample booking row used in concrete witnesses and counterexamples. -/
def bookingA : Booking := { id := 1, student := 10, status := .pending }

/-- Sample payment row in a chosen status. -/
def paymentA (st : PaymentStatus) : Payment :=
  { id := 1
    payment_intent_id := "pi_a"
    idempotency_key := "k1"
    amount := 10000
    currency := "RUB"
    status := st
    booking_id := 1
    user_id := 10 }

/-- One-booking, one-payment database in a chosen payment status. -/
def dbA (st : PaymentStatus) : Db :=
  { bookings := [bookingA], payments := [paymentA st] }

/-- First request of the concrete idempotency scenario. -/
def reqW1 : IntentRequest :=
  { booking_id := 1, amount := 10000, currency := "RUB", idempotency_key := "k9" }

/-- Retried request: same key, different amount and currency. -/
def reqW2 : IntentRequest :=
  { booking_id := 1, amount := 555, currency := "USD", idempotency_key := "k9" }

/-- Database with one booking and no payments yet. -/
def dbW : Db := { bookings := [bookingA], payments := [] }

/-- The payment_intent_id field of a CreateIntent response. -/
def IntentResp.intentIdOf : IntentResp → Option String
  | .bookingNotFound => none
  | .ok pid _ _ _ _ _ => some pid

/-- The client_secret field of a CreateIntent response. -/
def IntentResp.secretOf : IntentResp → Option String
  | .bookingNotFound => none
  | .ok _ cs _ _ _ _ => some cs

/-- Marking helper: the row update the publisher performs on success. -/
def publishMark (now : Nat) (e : OutboxEvent) : OutboxEvent :=
  { e with published_at := some now }

/-- Whether some row in `l` carries the id `i`. -/
def hasId (l : List OutboxEvent) (i : Nat) : Bool :=
  l.any (fun x => x.id == i)

/-- Concrete outbox row used by the drain-cycle witness. -/
def evW (i c : Nat) : OutboxEvent :=
  { id := i
    aggregate_type := "Tutor"
    aggregate_id := "1"
    event_type := "TutorCreated"
    payload := "x"
    created_at := c
    published_at := none }

/-- A `find?` over a mapped list, when the map cannot change the predicate's
verdict, is the map of the original `find?`. -/
lemma find?_map_pres (f : α → α) (p : α → Bool) (l : List α)
    (hf : ∀ x, p (f x) = p x) :
    (l.map f).find? p = (l.find? p).map f := by
  induction l with
  | nil => rfl
  | cons a t ih =>
    cases hp : p a with
    | true =>
      rw [List.map_cons, List.find?_cons_of_pos _ ((hf a).trans hp),
        List.find?_cons_of_pos _ hp]
      rfl
    | false =>
      rw [List.map_cons, List.find?_cons_of_neg _ (by simp [hf a, hp]),
        List.find?_cons_of_neg _ (by simp [hp]), ih]

/-- Updating one payment's status rewrites the row the intent-id lookup
returns, and nothing else about that lookup. -/
lemma getPaymentByIntent_update (db : Db) (i : Nat) (st : PaymentStatus)
    (pid : String) :
    (db.updatePaymentStatus i st).getPaymentByIntent pid =
      (db.getPaymentByIntent pid).map
        (fun p => if p.id == i then { p with status := st } else p) := by
  unfold Db.getPaymentByIntent Db.updatePaymentStatus
  exact find?_map_pres _ _ _ (fun x => by by_cases h : x.id == i <;> simp [h])

/-- The user-scoped payment lookup commutes with a status update the same
way. -/
lemma getPaymentByIntentAndUser_update (db : Db) (i : Nat) (st : PaymentStatus)
    (pid : String) (user : Nat) :
    (db.updatePaymentStatus i st).getPaymentByIntentAndUser pid user =
      (db.getPaymentByIntentAndUser pid user).map
        (fun p => if p.id == i then { p with status := st } else p) := by
  unfold Db.getPaymentByIntentAndUser Db.updatePaymentStatus
  exact find?_map_pres _ _ _ (fun x => by by_cases h : x.id == i <;> simp [h])

/-- Updating one booking's status rewrites the row the pk lookup returns. -/
lemma getBookingById_update (db : Db) (i : Nat) (st : BookingStatus)
    (booking_id : Nat) :
    (db.updateBookingStatus i st).getBookingById booking_id =
      (db.getBookingById booking_id).map
        (fun b => if b.id == i then { b with status := st } else b) := by
  unfold Db.getBookingById Db.updateBookingStatus
  exact find?_map_pres _ _ _ (fun x => by by_cases h : x.id == i <;> simp [h])

/-- In a list that is pairwise distinct on a key, two members sharing the key
are the same element. -/
lemma eq_of_pairwise_key {α β : Type} (k : α → β) {l : List α} {a b : α}
    (hp : l.Pairwise (fun x y => k x ≠ k y))
    (ha : a ∈ l) (hb : b ∈ l) (hk : k a = k b) : a = b := by
  induction l with
  | nil => cases ha
  | cons x t ih =>
    rcases List.mem_cons.mp ha with rfl | ha' <;>
      rcases List.mem_cons.mp hb with rfl | hb'
    · rfl
    · exact absurd hk ((List.pairwise_cons.mp hp).1 b hb')
    · exact absurd hk.symm ((List.pairwise_cons.mp hp).1 a ha')
    · exact ih (List.pairwise_cons.mp hp).2 ha' hb'

/-- A member of the user-scoped lookup's result is the same row the unscoped
intent lookup returns, once intent ids are pairwise distinct. -/
lemma scoped_lookup_eq_unscoped (db : Db) (pid : String) (user : Nat)
    (p q : Payment)
    (huniq : db.payments.Pairwise
      (fun x y => x.payment_intent_id ≠ y.payment_intent_id))
    (hp : db.getPaymentByIntent pid = some p)
    (hq : db.getPaymentByIntentAndUser pid user = some q) : q = p := by
  have hpm := List.find?_some hp
  have hpmem := List.mem_of_find?_eq_some hp
  have hqm := List.find?_some hq
  have hqmem := List.mem_of_find?_eq_some hq
  simp only [Bool.and_eq_true, beq_iff_eq] at hpm hqm
  exact eq_of_pairwise_key (fun x => x.payment_intent_id) huniq hqmem hpmem
    (hqm.1.trans hpm.symm)

/-- Claim C1: the business mutation and its OutboxEvent row are not written
in one transaction.  on_tutor_save registers the event creation with
`transaction.on_commit`, so the row is appended in a separate, later commit:
a rollback indeed leaves no event, and an undisturbed commit leaves exactly
one unpublished event, but a commit followed by a crash before the hook runs
leaves a committed Tutor mutation with no event row — the atomicity the
claim (and the OutboxEvent docstring) state does not hold. -/
theorem c1_on_commit_splits_transaction :
    tutorSaveOnCommit ⟨[], []⟩ 7 false true 1 99 5 = ⟨[], []⟩ ∧
    (tutorSaveOnCommit ⟨[], []⟩ 7 true true 1 99 5).outbox =
      [mkTutorEvent 1 7 "TutorCreated" "99" 5] ∧
    (mkTutorEvent 1 7 "TutorCreated" "99" 5).published_at = none ∧
    (tutorSaveOnCommit ⟨[], []⟩ 7 true false 1 99 5).tutors = [7] ∧
    (tutorSaveOnCommit ⟨[], []⟩ 7 true false 1 99 5).outbox = [] := by
  decide

/-- Claim C2 counterexample: on a succeeded event for an existing payment,
the async webhook handler enqueues the booking-confirmation job while the
admin manual-trigger endpoint enqueues nothing, so the admin endpoint does
not apply "exactly the same" logic including the side effect. -/
theorem c2_side_effect_mismatch :
    (process_webhook_event (dbA .processing) "payment_intent.succeeded" "pi_a").2.2 =
      [Job.confirmBooking 1] ∧
    (webhookSimulatorPost (dbA .processing) "payment_intent.succeeded" "pi_a").2.2 =
      [] := by
  decide

/-- Claim C2 (amended): the admin webhook-trigger endpoint applies exactly
the same Payment state change as process_webhook_event for every event type
and database, but it enqueues no job at all — in particular it does not
schedule the booking-confirmation side effect on succeeded. -/
theorem c2_admin_same_state_no_job (db : Db) (event_type pid : String) :
    (webhookSimulatorPost db event_type pid).1 =
      (process_webhook_event db event_type pid).1 ∧
    (webhookSimulatorPost db event_type pid).2.2 = [] := by
  unfold webhookSimulatorPost process_webhook_event
  cases hp : db.getPaymentByIntent pid <;> simp

/-- Claim C5: process_webhook_event is total on a missing payment (an error
result, no exception), sets the succeeded terminal status and enqueues the
booking-confirmation job on succeeded, and sets failed with no side effect
on failed. -/
theorem c5_webhook_terminal_application (db : Db) (pid : String) :
    (db.getPaymentByIntent pid = none →
      ∀ event_type, process_webhook_event db event_type pid =
        (db, .notFound, [])) ∧
    (∀ p, db.getPaymentByIntent pid = some p →
      ((process_webhook_event db "payment_intent.succeeded" pid).1.statusOfIntent pid
          = some .succeeded ∧
        (process_webhook_event db "payment_intent.succeeded" pid).2.1 =
          .ok p.status .succeeded ∧
        (process_webhook_event db "payment_intent.succeeded" pid).2.2 =
          [Job.confirmBooking p.id]) ∧
      ((process_webhook_event db "payment_intent.failed" pid).1.statusOfIntent pid
          = some .failed ∧
        (process_webhook_event db "payment_intent.failed" pid).2.1 =
          .ok p.status .failed ∧
        (process_webhook_event db "payment_intent.failed" pid).2.2 = [])) := by
  constructor
  · intro h event_type
    unfold process_webhook_event
    rw [h]
  · intro p hp
    have hs := getPaymentByIntent_update db p.id PaymentStatus.succeeded pid
    have hf := getPaymentByIntent_update db p.id PaymentStatus.failed pid
    unfold process_webhook_event
    rw [hp]
    simp [Db.statusOfIntent, hs, hf, hp]

/-- Witness for C5 at a concrete database. -/
theorem c5_webhook_terminal_application_witness :
    (process_webhook_event (dbA .processing) "payment_intent.succeeded" "pi_a").1.statusOfIntent "pi_a"
      = some .succeeded ∧
    (process_webhook_event (dbA .processing) "payment_intent.failed" "pi_a").2.2 = [] := by
  have h := c5_webhook_terminal_application (dbA .processing) "pi_a"
  have h2 := h.2 (paymentA .processing) (by decide)
  exact ⟨h2.1.1, h2.2.2.2⟩

/-- Claim C7: the simulator's outcome is a pure function of the card number
on the designated inputs (success card, the two failure cards, no card), it
enqueues the webhook job with that event and the payment's intent id, and it
never writes the database. -/
theorem c7_simulator_outcomes (db : Db) (payment_id : Nat) (p : Payment)
    (hp : db.getPaymentById payment_id = some p) (coin : Bool) :
    simulate_payment_provider db payment_id (some TEST_CARD_SUCCESS) coin =
      (db, .done payment_id "payment_intent.succeeded",
       [Job.webhook "payment_intent.succeeded" p.payment_intent_id]) ∧
    simulate_payment_provider db payment_id (some TEST_CARD_DECLINED) coin =
      (db, .done payment_id "payment_intent.failed",
       [Job.webhook "payment_intent.failed" p.payment_intent_id]) ∧
    simulate_payment_provider db payment_id (some TEST_CARD_INSUFFICIENT) coin =
      (db, .done payment_id "payment_intent.failed",
       [Job.webhook "payment_intent.failed" p.payment_intent_id]) ∧
    simulate_payment_provider db payment_id none coin =
      (db, .done payment_id "payment_intent.succeeded",
       [Job.webhook "payment_intent.succeeded" p.payment_intent_id]) ∧
    (∀ card, (simulate_payment_provider db payment_id card coin).1 = db) := by
  unfold simulate_payment_provider
  rw [hp]
  refine ⟨?_, ?_, ?_, ?_, ?_⟩ <;>
    simp [simulateEvent, cardTruthy, TEST_CARD_SUCCESS, TEST_CARD_DECLINED,
      TEST_CARD_INSUFFICIENT]

/-- Witness for C7 at a concrete database. -/
theorem c7_simulator_outcomes_witness :
    simulate_payment_provider (dbA .processing) 1 (some "4242424242424242") true =
      ((dbA .processing), .done 1 "payment_intent.succeeded",
       [Job.webhook "payment_intent.succeeded" "pi_a"]) := by
  have h := c7_simulator_outcomes (dbA .processing) 1 (paymentA .processing)
    (by decide) true
  exact h.1

/-- Claim C8: Confirm on a requester-owned payment is a pure no-op whenever
the status is not pending (current status returned, no write, no job), and
only on a pending payment moves to processing and enqueues exactly one
simulator job. -/
theorem c8_confirm_non_pending_no_op (db : Db) (user : Nat) (pid : String)
    (card : Option String) (p : Payment)
    (hp : db.getPaymentByIntentAndUser pid user = some p) :
    (p.status ≠ .pending →
      confirmPaymentPost db user pid card =
        (db, .ok p.status p.payment_intent_id, [])) ∧
    (p.status = .pending →
      confirmPaymentPost db user pid card =
        (db.updatePaymentStatus p.id .processing,
         .ok .processing p.payment_intent_id, [Job.simulate p.id card])) := by
  unfold confirmPaymentPost
  rw [hp]
  exact ⟨fun h => by simp [h], fun h => by simp [h]⟩

/-- Witness for C8 at a concrete database. -/
theorem c8_confirm_non_pending_no_op_witness :
    confirmPaymentPost (dbA .succeeded) 10 "pi_a" none =
      ((dbA .succeeded), .ok .succeeded "pi_a", []) := by
  have h := c8_confirm_non_pending_no_op (dbA .succeeded) 10 "pi_a" none
    (paymentA .succeeded) (by decide)
  exact h.1 (by decide)

/-- The creating branch of CreatePaymentIntentView: with the booking found
and no payment under the key, a fresh pending row is appended and returned
with created = true. -/
lemma createIntent_creates (db : Db) (user : Nat) (req : IntentRequest)
    (fi fs : String) (pk : Nat) (b : Booking)
    (hb : db.getBookingForUser req.booking_id user = some b)
    (hnone : db.payments.find?
      (fun p => p.idempotency_key == req.idempotency_key) = none) :
    createPaymentIntentPost db user req fi fs pk =
      ({ db with payments := db.payments ++
          [{ id := pk
             payment_intent_id := generate_payment_intent_id fi
             idempotency_key := req.idempotency_key
             amount := req.amount
             currency := req.currency
             status := .pending
             booking_id := b.id
             user_id := user }] },
       .ok (generate_payment_intent_id fi)
         (generate_client_secret (generate_payment_intent_id fi) fs)
         req.amount req.currency .pending true) := by
  unfold createPaymentIntentPost
  rw [hb, hnone]

/-- The fetching branch of CreatePaymentIntentView: with the booking found
and an existing payment under the key, that row is returned unchanged with
created = false and a freshly derived client secret. -/
lemma createIntent_fetches (db : Db) (user : Nat) (req : IntentRequest)
    (fi fs : String) (pk : Nat) (b : Booking) (p : Payment)
    (hb : db.getBookingForUser req.booking_id user = some b)
    (hsome : db.payments.find?
      (fun p => p.idempotency_key == req.idempotency_key) = some p) :
    createPaymentIntentPost db user req fi fs pk =
      (db, .ok p.payment_intent_id
        (generate_client_secret p.payment_intent_id fs)
        p.amount p.currency p.status false) := by
  unfold createPaymentIntentPost
  rw [hb, hsome]

/-- Appending a row that matches the predicate to a list with no match makes
`find?` return exactly that row. -/
lemma find?_append_singleton_none {α : Type} (l : List α) (x : α) (p : α → Bool)
    (hl : l.find? p = none) (hx : p x = true) :
    (l ++ [x]).find? p = some x := by
  rw [List.find?_append, hl, List.find?_cons_of_pos _ hx]
  rfl

/-- Re-pointing the status of the row the intent lookup returns updates the
status that lookup reads back. -/
lemma statusOfIntent_update_self (db : Db) (p : Payment) (pid : String)
    (hp : db.getPaymentByIntent pid = some p) (st : PaymentStatus) :
    (db.updatePaymentStatus p.id st).statusOfIntent pid = some st := by
  unfold Db.statusOfIntent
  rw [getPaymentByIntent_update, hp]
  simp

/-- The admin webhook-simulator endpoint leaves the database exactly as the
async webhook handler does, for every event type. -/
lemma webhookSimulator_state_eq (db : Db) (event_type pid : String) :
    (webhookSimulatorPost db event_type pid).1 =
      (process_webhook_event db event_type pid).1 := by
  unfold webhookSimulatorPost process_webhook_event
  cases hp : db.getPaymentByIntent pid <;> simp

/-- Status read back through the intent lookup after one webhook event. -/
lemma webhook_status_after (db : Db) (p : Payment) (pid event_type : String)
    (hp : db.getPaymentByIntent pid = some p) :
    (process_webhook_event db event_type pid).1.statusOfIntent pid =
      some (if event_type == "payment_intent.succeeded" then .succeeded
        else if event_type == "payment_intent.failed" then .failed
        else p.status) := by
  unfold process_webhook_event
  rw [hp]
  exact statusOfIntent_update_self db p pid hp _

/-- Claim C3 counterexample: a payment already in the terminal status
succeeded is overwritten to the other terminal status failed by
process_webhook_event, so "no operation ever changes a terminal status" is
false as stated. -/
theorem c3_overwrite_counterexample :
    (dbA .succeeded).statusOfIntent "pi_a" = some .succeeded ∧
    (process_webhook_event (dbA .succeeded) "payment_intent.failed" "pi_a").1.statusOfIntent "pi_a"
      = some .failed := by
  decide

/-- Claim C3 (amended): once a payment's status is terminal it is never
taken back to pending or processing by Confirm, the webhook handler or the
admin trigger, and Confirm leaves it entirely unchanged; the webhook handler
and admin trigger can however overwrite one terminal status with the other
(see the counterexample). -/
theorem c3_terminal_monotonic_amended (db : Db) (pid : String)
    (st : PaymentStatus)
    (huniq : db.payments.Pairwise
      (fun x y => x.payment_intent_id ≠ y.payment_intent_id))
    (hst : db.statusOfIntent pid = some st)
    (hterm : st = .succeeded ∨ st = .failed) :
    (∀ user card,
      (confirmPaymentPost db user pid card).1.statusOfIntent pid = some st) ∧
    (∀ event_type,
      (process_webhook_event db event_type pid).1.statusOfIntent pid ≠
        some .pending ∧
      (process_webhook_event db event_type pid).1.statusOfIntent pid ≠
        some .processing) ∧
    (∀ event_type,
      (webhookSimulatorPost db event_type pid).1.statusOfIntent pid ≠
        some .pending ∧
      (webhookSimulatorPost db event_type pid).1.statusOfIntent pid ≠
        some .processing) := by
  obtain ⟨p, hp, hps⟩ :
      ∃ p, db.getPaymentByIntent pid = some p ∧ p.status = st := by
    unfold Db.statusOfIntent at hst
    cases hq : db.getPaymentByIntent pid with
    | none => rw [hq] at hst; cases hst
    | some q => rw [hq] at hst; exact ⟨q, rfl, by simpa using hst⟩
  have key : ∀ event_type,
      (process_webhook_event db event_type pid).1.statusOfIntent pid ≠
        some PaymentStatus.pending ∧
      (process_webhook_event db event_type pid).1.statusOfIntent pid ≠
        some PaymentStatus.processing := by
    intro et
    rw [webhook_status_after db p pid et hp]
    rcases hterm with rfl | rfl <;>
      constructor <;> simp <;> split_ifs <;> simp [hps]
  refine ⟨?_, key, fun et => ?_⟩
  · intro user card
    unfold confirmPaymentPost
    cases hq : db.getPaymentByIntentAndUser pid user with
    | none => exact hst
    | some q =>
      have hqp : q = p := scoped_lookup_eq_unscoped db pid user p q huniq hp hq
      subst hqp
      have hnp : ¬ q.status = PaymentStatus.pending := by
        rcases hterm with rfl | rfl <;> rw [hps] <;> simp
      simp only [hnp, if_false]
      exact hst
  · rw [webhookSimulator_state_eq]
    exact key et

/-- Witness for the amended C3 at a concrete database. -/
theorem c3_terminal_monotonic_amended_witness :
    (confirmPaymentPost (dbA .succeeded) 10 "pi_a" none).1.statusOfIntent "pi_a"
      = some .succeeded := by
  have h := c3_terminal_monotonic_amended (dbA .succeeded) "pi_a" .succeeded
    (by decide) (by decide) (Or.inl rfl)
  exact h.1 10 none

/-- Claim C4: CreateIntent is idempotent on the idempotency key.  With the
booking resolvable on both calls and no payment yet under the key, the first
call creates a pending row and answers created = true (201); a second call
with the same key — any amount and currency — returns the same
payment_intent_id and the first call's stored amount, currency and status
with created = false (200), writes nothing, and exactly one row carries the
key. -/
theorem c4_create_intent_idempotent (db : Db) (user : Nat)
    (req1 req2 : IntentRequest) (f1 s1 f2 s2 : String) (pk1 pk2 : Nat)
    (b1 b2 : Booking)
    (hb1 : db.getBookingForUser req1.booking_id user = some b1)
    (hb2 : db.getBookingForUser req2.booking_id user = some b2)
    (hkey : db.payments.find?
      (fun p => p.idempotency_key == req1.idempotency_key) = none)
    (hkk : req2.idempotency_key = req1.idempotency_key) :
    (createPaymentIntentPost db user req1 f1 s1 pk1).2 =
      .ok (generate_payment_intent_id f1)
        (generate_client_secret (generate_payment_intent_id f1) s1)
        req1.amount req1.currency .pending true ∧
    (createPaymentIntentPost (createPaymentIntentPost db user req1 f1 s1 pk1).1
        user req2 f2 s2 pk2).2 =
      .ok (generate_payment_intent_id f1)
        (generate_client_secret (generate_payment_intent_id f1) s2)
        req1.amount req1.currency .pending false ∧
    (createPaymentIntentPost (createPaymentIntentPost db user req1 f1 s1 pk1).1
        user req2 f2 s2 pk2).1 =
      (createPaymentIntentPost db user req1 f1 s1 pk1).1 ∧
    ((createPaymentIntentPost db user req1 f1 s1 pk1).1.payments.filter
        (fun p => p.idempotency_key == req1.idempotency_key)).length = 1 ∧
    intentHttpCode (createPaymentIntentPost db user req1 f1 s1 pk1).2 = 201 ∧
    intentHttpCode (createPaymentIntentPost (createPaymentIntentPost db user
        req1 f1 s1 pk1).1 user req2 f2 s2 pk2).2 = 200 := by
  have h1 := createIntent_creates db user req1 f1 s1 pk1 b1 hb1 hkey
  have hkey2 : db.payments.find?
      (fun p => p.idempotency_key == req2.idempotency_key) = none := by
    rw [hkk]; exact hkey
  have hfind : ((createPaymentIntentPost db user req1 f1 s1 pk1).1).payments.find?
      (fun p => p.idempotency_key == req2.idempotency_key) =
      some { id := pk1
             payment_intent_id := generate_payment_intent_id f1
             idempotency_key := req1.idempotency_key
             amount := req1.amount
             currency := req1.currency
             status := .pending
             booking_id := b1.id
             user_id := user } := by
    rw [h1]
    exact find?_append_singleton_none _ _ _ hkey2 (by simp [hkk])
  have hb2' : ((createPaymentIntentPost db user req1 f1 s1 pk1).1).getBookingForUser
      req2.booking_id user = some b2 := by
    rw [h1]; exact hb2
  have h2 := createIntent_fetches
    ((createPaymentIntentPost db user req1 f1 s1 pk1).1) user req2 f2 s2 pk2
    b2 _ hb2' hfind
  refine ⟨by rw [h1], by rw [h2], by rw [h2], ?_, by rw [h1]; rfl, by rw [h2]; rfl⟩
  rw [h1]
  have hnil : db.payments.filter
      (fun p => p.idempotency_key == req1.idempotency_key) = [] := by
    rw [List.filter_eq_nil_iff]
    exact fun a ha hpa => (List.find?_eq_none.mp hkey a ha) hpa
  simp [List.filter_append, hnil]

/-- Witness for C4 at a concrete database and pair of requests. -/
theorem c4_create_intent_idempotent_witness :
    (createPaymentIntentPost (createPaymentIntentPost dbW 10 reqW1 "f1" "s1" 5).1
        10 reqW2 "f2" "s2" 6).2 =
      .ok (generate_payment_intent_id "f1")
        (generate_client_secret (generate_payment_intent_id "f1") "s2")
        10000 "RUB" .pending false ∧
    ((createPaymentIntentPost dbW 10 reqW1 "f1" "s1" 5).1.payments.filter
        (fun p => p.idempotency_key == "k9")).length = 1 := by
  have h := c4_create_intent_idempotent dbW 10 reqW1 reqW2 "f1" "s1" "f2" "s2"
    5 6 bookingA bookingA (by decide) (by decide) (by decide) rfl
  exact ⟨h.2.1, h.2.2.2.1⟩

/-- Client secrets built from the same intent id and distinct fresh uuid hex
strings are distinct. -/
lemma client_secret_fresh_inj (pid : String) {s1 s2 : String}
    (h : generate_client_secret pid s1 = generate_client_secret pid s2) :
    s1 = s2 := by
  unfold generate_client_secret at h
  have hd := congrArg String.data h
  simp [String.data_append] at hd
  exact String.ext hd

/-- Claim C10: across two CreateIntent calls with the same idempotency key,
the payment_intent_id is stable while the client secret — rebuilt from a
fresh uuid hex on every call and never stored on the Payment row — differs
whenever the fresh inputs differ. -/
theorem c10_fresh_client_secret (db : Db) (user : Nat)
    (req1 req2 : IntentRequest) (f1 s1 f2 s2 : String) (pk1 pk2 : Nat)
    (b1 b2 : Booking)
    (hb1 : db.getBookingForUser req1.booking_id user = some b1)
    (hb2 : db.getBookingForUser req2.booking_id user = some b2)
    (hkey : db.payments.find?
      (fun p => p.idempotency_key == req1.idempotency_key) = none)
    (hkk : req2.idempotency_key = req1.idempotency_key)
    (hs : s1 ≠ s2) :
    (createPaymentIntentPost db user req1 f1 s1 pk1).2.intentIdOf =
      (createPaymentIntentPost (createPaymentIntentPost db user req1 f1 s1 pk1).1
        user req2 f2 s2 pk2).2.intentIdOf ∧
    (createPaymentIntentPost db user req1 f1 s1 pk1).2.secretOf ≠
      (createPaymentIntentPost (createPaymentIntentPost db user req1 f1 s1 pk1).1
        user req2 f2 s2 pk2).2.secretOf := by
  have h1 := createIntent_creates db user req1 f1 s1 pk1 b1 hb1 hkey
  have hkey2 : db.payments.find?
      (fun p => p.idempotency_key == req2.idempotency_key) = none := by
    rw [hkk]; exact hkey
  have hfind : ((createPaymentIntentPost db user req1 f1 s1 pk1).1).payments.find?
      (fun p => p.idempotency_key == req2.idempotency_key) =
      some { id := pk1
             payment_intent_id := generate_payment_intent_id f1
             idempotency_key := req1.idempotency_key
             amount := req1.amount
             currency := req1.currency
             status := .pending
             booking_id := b1.id
             user_id := user } := by
    rw [h1]
    exact find?_append_singleton_none _ _ _ hkey2 (by simp [hkk])
  have hb2' : ((createPaymentIntentPost db user req1 f1 s1 pk1).1).getBookingForUser
      req2.booking_id user = some b2 := by
    rw [h1]; exact hb2
  have h2 := createIntent_fetches
    ((createPaymentIntentPost db user req1 f1 s1 pk1).1) user req2 f2 s2 pk2
    b2 _ hb2' hfind
  constructor
  · rw [h2, h1]; rfl
  · rw [h2, h1]
    intro hcontra
    exact hs (client_secret_fresh_inj _ (by
      simpa [IntentResp.secretOf] using hcontra))

/-- Witness for C10 at a concrete database. -/
theorem c10_fresh_client_secret_witness :
    (createPaymentIntentPost dbW 10 reqW1 "f1" "s1" 5).2.intentIdOf =
      (createPaymentIntentPost (createPaymentIntentPost dbW 10 reqW1 "f1" "s1" 5).1
        10 reqW2 "f2" "s2" 6).2.intentIdOf ∧
    (createPaymentIntentPost dbW 10 reqW1 "f1" "s1" 5).2.secretOf ≠
      (createPaymentIntentPost (createPaymentIntentPost dbW 10 reqW1 "f1" "s1" 5).1
        10 reqW2 "f2" "s2" 6).2.secretOf := by
  exact c10_fresh_client_secret dbW 10 reqW1 reqW2 "f1" "s1" "f2" "s2" 5 6
    bookingA bookingA (by decide) (by decide) (by decide) rfl (by decide)

/-- Claim C9: ConfirmBookingForPayment is idempotent.  A pending booking is
flipped to confirmed; any non-pending booking is left untouched with no
write; a second call for the same payment after the first is a no-op that
returns the confirmed booking and performs no write. -/
theorem c9_confirm_booking_idempotent (db : Db) (payment_id : Nat)
    (p : Payment) (b : Booking)
    (hp : db.getPaymentById payment_id = some p)
    (hb : db.getBookingById p.booking_id = some b) :
    (b.status = .pending →
      (process_successful_payment db payment_id).1.statusOfBooking p.booking_id
        = some .confirmed ∧
      process_successful_payment (process_successful_payment db payment_id).1
          payment_id =
        ((process_successful_payment db payment_id).1,
         .done payment_id b.id .confirmed)) ∧
    (b.status ≠ .pending →
      process_successful_payment db payment_id =
        (db, .done payment_id b.id b.status)) := by
  constructor
  · intro hpend
    have hres : process_successful_payment db payment_id =
        (db.updateBookingStatus b.id .confirmed,
         .done payment_id b.id .confirmed) := by
      simp [process_successful_payment, hp, hb, hpend]
    have hbid : (db.updateBookingStatus b.id .confirmed).getBookingById
        p.booking_id = some { b with status := .confirmed } := by
      rw [getBookingById_update, hb]
      simp
    constructor
    · rw [hres]
      unfold Db.statusOfBooking
      rw [hbid]
      rfl
    · rw [hres]
      have hp1 : (db.updateBookingStatus b.id BookingStatus.confirmed).getPaymentById
          payment_id = some p := hp
      simp [process_successful_payment, hp1, hbid]
  · intro hnp
    simp [process_successful_payment, hp, hb, hnp]

/-- Witness for C9 at a concrete database. -/
theorem c9_confirm_booking_idempotent_witness :
    (process_successful_payment (dbA .succeeded) 1).1.statusOfBooking 1
      = some .confirmed ∧
    process_successful_payment (process_successful_payment (dbA .succeeded) 1).1 1 =
      ((process_successful_payment (dbA .succeeded) 1).1, .done 1 1 .confirmed) := by
  have h := c9_confirm_booking_idempotent (dbA .succeeded) 1
    (paymentA .succeeded) bookingA (by decide) (by decide)
  exact h.1 rfl

/-- The publisher loop publishes exactly the rows whose id belongs to a
batch element whose send succeeded, row by row. -/
lemma drainLoop_fst (outbox batch : List OutboxEvent)
    (send : OutboxEvent → Bool) (now : Nat) :
    (drainLoop outbox batch send now).1 =
      outbox.map (fun e =>
        if hasId (batch.filter send) e.id then publishMark now e else e) := by
  induction batch generalizing outbox with
  | nil => simp [drainLoop, hasId]
  | cons a rest ih =>
    cases hs : send a with
    | true =>
      rw [List.filter_cons_of_pos hs]
      simp only [drainLoop, hs, if_true]
      rw [ih, markPublished, List.map_map]
      refine List.map_eq_map_iff.mpr (fun x _ => ?_)
      by_cases hx : x.id = a.id
      · have h1 : hasId (a :: rest.filter send) x.id = true := by
          simp [hasId, List.any_cons, hx]
        rw [h1]
        simp only [Function.comp_apply, hx, beq_self_eq_true, if_true]
        by_cases h2 : hasId (rest.filter send) a.id
        · simp [h2, publishMark, hx]
        · simp [h2, publishMark, hx]
      · have hxx : (x.id == a.id) = false := by simp [hx]
        have h1 : hasId (a :: rest.filter send) x.id =
            hasId (rest.filter send) x.id := by
          simp [hasId, List.any_cons, Ne.symm hx]
        rw [h1]
        simp [Function.comp, hxx]
    | false =>
      rw [List.filter_cons_of_neg (by simp [hs])]
      simp only [drainLoop, hs, if_false]
      exact ih outbox

/-- Filtering after a map that either fixes an element or makes it fail the
filter yields a sublist of the original filtering. -/
lemma filter_map_sublist {α : Type} (l : List α) (f : α → α) (p : α → Bool)
    (hf : ∀ x ∈ l, f x = x ∨ p (f x) = false) :
    List.Sublist ((l.map f).filter p) (l.filter p) := by
  induction l with
  | nil => simp
  | cons a t ih =>
    have ih' := ih (fun x hx => hf x (List.mem_cons_of_mem a hx))
    rcases hf a (List.mem_cons_self a t) with h | h
    · rw [List.map_cons, h]
      by_cases hp : p a
      · rw [List.filter_cons_of_pos hp, List.filter_cons_of_pos hp]
        exact List.Sublist.cons₂ a ih'
      · rw [List.filter_cons_of_neg hp, List.filter_cons_of_neg hp]
        exact ih'
    · rw [List.map_cons, List.filter_cons_of_neg (by simp [h])]
      by_cases hp : p a
      · rw [List.filter_cons_of_pos hp]
        exact List.Sublist.cons a ih'
      · rw [List.filter_cons_of_neg hp]
        exact ih'

/-- A member of the first n entries of a duplicate-free list that survives
into a sublist is among the first n entries of that sublist. -/
lemma mem_take_of_sublist_nodup {α : Type} {l l2 : List α}
    (h : List.Sublist l2 l) :
    ∀ (n : Nat) (e : α), l.Nodup → e ∈ l.take n → e ∈ l2 → e ∈ l2.take n := by
  induction h with
  | slnil => intro n e _ _ h2; cases h2
  | cons a h ih =>
    intro n e hnd he he2
    cases n with
    | zero => simp at he
    | succ m =>
      rw [List.take_succ_cons] at he
      rcases List.mem_cons.mp he with rfl | hem
      · exact absurd (h.subset he2) (List.nodup_cons.mp hnd).1
      · exact (List.take_sublist_take_left _ (Nat.le_succ m)).subset
          (ih m e (List.nodup_cons.mp hnd).2 hem he2)
  | cons₂ a h ih =>
    intro n e hnd he he2
    cases n with
    | zero => simp at he
    | succ m =>
      rw [List.take_succ_cons] at he ⊢
      rcases List.mem_cons.mp he with rfl | hem
      · exact List.mem_cons_self _ _
      · rcases List.mem_cons.mp he2 with rfl | he3
        · exact List.mem_cons_self _ _
        · exact List.mem_cons_of_mem a (ih m e (List.nodup_cons.mp hnd).2 hem he3)

/-- Claim C6: one drain cycle selects up to 100 unpublished events oldest
first; every selected event is attempted regardless of other events'
delivery failures, so the cycle rewrites each row independently — a row is
stamped published_at = now exactly when it was selected and its own send
succeeded, and is untouched otherwise; a selected event whose send failed is
still unpublished and is selected again by the next drain cycle. -/
theorem c6_drain_cycle (outbox : List OutboxEvent) (send : OutboxEvent → Bool)
    (now : Nat)
    (hid : outbox.Pairwise (fun a b => a.id ≠ b.id))
    (hsort : outbox.Pairwise (fun a b => a.created_at ≤ b.created_at)) :
    drainSelect outbox = (outbox.filter unpublished).take 100 ∧
    (drainSelect outbox).Pairwise (fun a b => a.created_at ≤ b.created_at) ∧
    (∀ e ∈ drainSelect outbox, e ∈ outbox ∧ e.published_at = none) ∧
    (publish_outbox_events outbox send now).1 =
      outbox.map (fun e =>
        if e ∈ drainSelect outbox ∧ send e = true
        then { e with published_at := some now } else e) ∧
    (∀ e ∈ drainSelect outbox, send e = false →
      e ∈ drainSelect (publish_outbox_events outbox send now).1) := by
  have hmemsel : ∀ e ∈ drainSelect outbox, e ∈ outbox ∧ e.published_at = none := by
    intro e he
    have h1 : e ∈ outbox.filter unpublished := (List.take_sublist _ _).subset he
    have h2 := List.mem_filter.mp h1
    exact ⟨h2.1, by simpa [unpublished] using h2.2⟩
  have hcond : ∀ e ∈ outbox,
      hasId ((drainSelect outbox).filter send) e.id = true ↔
        (e ∈ drainSelect outbox ∧ send e = true) := by
    intro e he
    constructor
    · intro h
      obtain ⟨y, hy, hyid⟩ := List.any_eq_true.mp h
      have hyf := List.mem_filter.mp hy
      have hyo : y ∈ outbox := (hmemsel y hyf.1).1
      have hye : y = e := eq_of_pairwise_key (fun z => z.id) hid hyo he
        (by simpa using hyid)
      subst hye
      exact ⟨hyf.1, hyf.2⟩
    · intro h
      exact List.any_eq_true.mpr
        ⟨e, List.mem_filter.mpr ⟨h.1, h.2⟩, by simp⟩
  have hmain : (publish_outbox_events outbox send now).1 =
      outbox.map (fun e =>
        if e ∈ drainSelect outbox ∧ send e = true
        then { e with published_at := some now } else e) := by
    rw [publish_outbox_events, drainLoop_fst]
    refine List.map_eq_map_iff.mpr (fun x hx => ?_)
    by_cases hc : x ∈ drainSelect outbox ∧ send x = true
    · rw [if_pos hc, (hcond x hx).mpr hc]
      rfl
    · rw [if_neg hc]
      have hfalse : hasId ((drainSelect outbox).filter send) x.id = false := by
        cases h : hasId ((drainSelect outbox).filter send) x.id
        · rfl
        · exact absurd ((hcond x hx).mp h) hc
      rw [hfalse]
      simp
  refine ⟨rfl, ?_, hmemsel, hmain, ?_⟩
  · exact List.Pairwise.sublist (List.take_sublist _ _)
      (List.Pairwise.filter unpublished hsort)
  · intro e he hsend
    have heo := hmemsel e he
    have hnc : ¬ (e ∈ drainSelect outbox ∧ send e = true) := by
      rintro ⟨h1, h2⟩
      rw [hsend] at h2
      cases h2
    have hge : (fun x =>
        if x ∈ drainSelect outbox ∧ send x = true
        then { x with published_at := some now } else x) e = e := if_neg hnc
    have hemap : e ∈ outbox.map (fun x =>
        if x ∈ drainSelect outbox ∧ send x = true
        then { x with published_at := some now } else x) := by
      have hm := List.mem_map_of_mem (fun x =>
        if x ∈ drainSelect outbox ∧ send x = true
        then { x with published_at := some now } else x) heo.1
      rwa [hge] at hm
    have hsub : List.Sublist
        ((outbox.map (fun x =>
          if x ∈ drainSelect outbox ∧ send x = true
          then { x with published_at := some now } else x)).filter unpublished)
        (outbox.filter unpublished) := by
      refine filter_map_sublist outbox _ unpublished (fun x _ => ?_)
      by_cases hc : x ∈ drainSelect outbox ∧ send x = true
      · right
        rw [if_pos hc]
        simp [unpublished]
      · left
        exact if_neg hc
    have hnodup : (outbox.filter unpublished).Nodup :=
      List.Nodup.filter unpublished
        (hid.imp (fun hne heq => hne (by rw [heq])))
    have hefil : e ∈ (outbox.map (fun x =>
        if x ∈ drainSelect outbox ∧ send x = true
        then { x with published_at := some now } else x)).filter unpublished :=
      List.mem_filter.mpr ⟨hemap, by simp [unpublished, heo.2]⟩
    have htake := mem_take_of_sublist_nodup hsub 100 e hnodup he hefil
    rw [drainSelect, hmain]
    exact htake

/-- Witness for C6: with a broker that fails the first event and delivers
the second, the second row alone is stamped and the failed first row is
selected again next cycle. -/
theorem c6_drain_cycle_witness :
    (publish_outbox_events [evW 1 1, evW 2 2] (fun e => e.id == 2) 7).1 =
      [evW 1 1, { evW 2 2 with published_at := some 7 }] ∧
    evW 1 1 ∈ drainSelect
      (publish_outbox_events [evW 1 1, evW 2 2] (fun e => e.id == 2) 7).1 := by
  have h := c6_drain_cycle [evW 1 1, evW 2 2] (fun e => e.id == 2) 7
    (by decide) (by decide)
  refine ⟨?_, h.2.2.2.2 (evW 1 1) (by decide) (by decide)⟩
  rw [h.2.2.2.1]
  decide

